import Mathlib

/-
  Verification of the real-time DDoS detection pipeline
  (flow aggregation, feature extraction, prediction, XDP mitigation).

  Shallow embedding of `real_time_detection/{flow_aggregator, feature_extractor,
  predictor, xdp_filter_manager, main}.py`.  Python floats are idealised as ℚ
  (with `numpy.std`'s square root represented exactly, see `SVal`), Python ints
  as ℤ/ℕ, Python dicts as association lists in insertion order.
-/

/-! ## Models of the Python builtins used by the pipeline -/

/-- Value of a decimal digit character (code points 48-57), `none` otherwise. -/
def digitVal? (c : Char) : Option ℕ :=
  let n := c.toNat
  if 48 ≤ n ∧ n ≤ 57 then some (n - 48) else none

/-- Value of a hexadecimal digit character, `none` otherwise: `0`-`9` are code
points 48-57, `a`-`f` are 97-102 (value `n - 87`), `A`-`F` are 65-70
(value `n - 55`). -/
def hexDigitVal? (c : Char) : Option ℕ :=
  let n := c.toNat
  if 48 ≤ n ∧ n ≤ 57 then some (n - 48)
  else if 97 ≤ n ∧ n ≤ 102 then some (n - 87)
  else if 65 ≤ n ∧ n ≤ 70 then some (n - 55)
  else none

/-- Parse a non-empty string of decimal digits; `none` on any other input. -/
def decDigits? (cs : List Char) : Option ℕ :=
  if cs.isEmpty then none
  else cs.foldlM (fun n c => (digitVal? c).map (fun d => 10 * n + d)) 0

/-- Parse a non-empty string of hexadecimal digits; `none` on any other input. -/
def hexDigits? (cs : List Char) : Option ℕ :=
  if cs.isEmpty then none
  else cs.foldlM (fun n c => (hexDigitVal? c).map (fun d => 16 * n + d)) 0

/-- Models Python `int(s, 0)` on the non-negative literals this pipeline sees:
a `0x`/`0X` prefixed hexadecimal literal (the tshark `tcp.flags` format) or a
plain decimal literal; every other string raises in Python, here `none`. -/
def pyIntBase0? (s : String) : Option ℕ :=
  match s.toList with
  | '0' :: 'x' :: rest => hexDigits? rest
  | '0' :: 'X' :: rest => hexDigits? rest
  | cs => decDigits? cs

/-- Models Python `int(s)` with its default base 10, as called on the length
field: an optionally signed run of decimal digits; anything else — including
base-prefixed forms such as `"0x10"`, which only `int(s, 0)` accepts — raises
in Python, here `none`. -/
def pyInt10? (s : String) : Option ℤ :=
  match s.toList with
  | '-' :: cs => (decDigits? cs).map (fun n => -(n : ℤ))
  | '+' :: cs => (decDigits? cs).map (fun n => (n : ℤ))
  | cs => (decDigits? cs).map (fun n => (n : ℤ))

/-- Models Python `float(s)` on the non-negative decimal literals this pipeline
sees: `digits` or `digits.digits` (the tshark `frame.time_epoch` format); every
other string raises in Python, here `none`. -/
def pyFloat? (s : String) : Option ℚ :=
  match s.toList.splitOn '.' with
  | [w] => (decDigits? w).map (fun n => (n : ℚ))
  | [w, f] =>
    match decDigits? w, decDigits? f with
    | some n, some fr => some ((n : ℚ) + (fr : ℚ) / (10 : ℚ) ^ f.length)
    | _, _ => none
  | _ => none

/-- Python `max` over a non-empty list of ints (`0` stands in for the empty
case, which the callers guard against as in the source). -/
def listMax : List ℤ → ℤ
  | [] => 0
  | x :: xs => xs.foldl max x

/-- Python `min` over a non-empty list of ints (`0` for the guarded empty case). -/
def listMin : List ℤ → ℤ
  | [] => 0
  | x :: xs => xs.foldl min x

/-! ## `FlowState` (flow_aggregator.py lines 18-87) -/

/-- Per-flow accumulator, `FlowState.__init__`.  The `tcp_flags` defaultdict
holds at most the six keys SYN/PSH/URG/FIN/RST/ACK, modelled as six counters. -/
structure FlowState where
  first_ts : ℚ
  last_ts : ℚ
  pkts : ℕ
  total_bytes : ℤ
  packet_sizes : List ℤ
  inter_arrivals : List ℚ
  last_pkt_ts : ℚ
  syn : ℕ
  psh : ℕ
  urg : ℕ
  fin : ℕ
  rst : ℕ
  ack : ℕ
deriving DecidableEq

/-- `FlowState(first_ts)`: all counters zero, both timestamps at `first_ts`. -/
def FlowState.init (first_ts : ℚ) : FlowState :=
  { first_ts := first_ts, last_ts := first_ts, pkts := 0, total_bytes := 0,
    packet_sizes := [], inter_arrivals := [], last_pkt_ts := first_ts,
    syn := 0, psh := 0, urg := 0, fin := 0, rst := 0, ack := 0 }

/-- `FlowState.add_packet(pkt_len, ts, tcp_flags_raw)`: appends the size, the
inter-arrival gap from the second packet on, advances the timestamps, and —
when the raw flags string is truthy and `int(raw, 0)` parses — bumps one
counter per set bit; a parse failure is swallowed (`except: pass`). -/
def FlowState.add_packet (s : FlowState) (pkt_len : ℤ) (ts : ℚ)
    (tcp_flags_raw : Option String) : FlowState :=
  let s1 : FlowState :=
    { s with
      pkts := s.pkts + 1,
      total_bytes := s.total_bytes + pkt_len,
      packet_sizes := s.packet_sizes ++ [pkt_len],
      inter_arrivals :=
        if s.pkts + 1 > 1 then s.inter_arrivals ++ [ts - s.last_pkt_ts]
        else s.inter_arrivals,
      last_pkt_ts := ts,
      last_ts := ts }
  match tcp_flags_raw with
  | none => s1
  | some raw =>
    if raw = "" then s1
    else
      match pyIntBase0? raw with
      | none => s1
      | some flags =>
        { s1 with
          syn := s1.syn + (if flags &&& 0x002 ≠ 0 then 1 else 0),
          psh := s1.psh + (if flags &&& 0x008 ≠ 0 then 1 else 0),
          urg := s1.urg + (if flags &&& 0x020 ≠ 0 then 1 else 0),
          fin := s1.fin + (if flags &&& 0x001 ≠ 0 then 1 else 0),
          rst := s1.rst + (if flags &&& 0x004 ≠ 0 then 1 else 0),
          ack := s1.ack + (if flags &&& 0x010 ≠ 0 then 1 else 0) }

/-! ## The summary dictionary (flow_aggregator.py lines 59-83)

`summarize()` returns a Python dict.  Its values are floats and ints — except
`pkt_std`, which is `numpy.std`, the square root of the population variance and
in general irrational, and `tcp_flags`, a nested dict.  `SVal` keeps each value
exact: `SVal.sqrtOf v` denotes the real number `Real.sqrt v`. -/

/-- A value stored in the summary dict. -/
inductive SVal where
  | num (x : ℚ)
  | sqrtOf (x : ℚ)
  | flagsDict (syn psh urg fin rst ack : ℕ)
deriving DecidableEq

/-- Denotation of a summary-dict value as a real number.  `flagsDict` is never
read numerically by any caller (Python `float` of a dict would raise); `0` is a
dummy for totality. -/
noncomputable def SVal.toReal : SVal → ℝ
  | .num x => (x : ℝ)
  | .sqrtOf x => Real.sqrt (x : ℝ)
  | .flagsDict _ _ _ _ _ _ => 0

/-- The summary dict: association list in Python insertion order. -/
abbrev Summary := List (String × SVal)

/-- Python `d.get(k)` / `d[k]` on an association-list dict. -/
def lookupStr : Summary → String → Option SVal
  | [], _ => none
  | (k', v) :: rest, k => if k = k' then some v else lookupStr rest k

/-- `FlowState.summarize()`: population mean/std/variance of the packet sizes
(`numpy.mean/std/var`), min/max, mean inter-arrival, and
`duration = max(1e-6, last_ts - first_ts)`, keyed exactly as in the source. -/
def FlowState.summarize (s : FlowState) : Summary :=
  let duration : ℚ := max (1 / 1000000) (s.last_ts - s.first_ts)
  let sizesQ : List ℚ := s.packet_sizes.map (fun x => (x : ℚ))
  let n : ℚ := (s.packet_sizes.length : ℚ)
  let pkt_mean : ℚ := if s.packet_sizes.isEmpty then 0 else sizesQ.sum / n
  let pkt_var : ℚ :=
    if s.packet_sizes.isEmpty then 0
    else ((sizesQ.map (fun x => (x - sizesQ.sum / n) ^ 2)).sum) / n
  let avg_pkt_size : ℚ := if s.packet_sizes.isEmpty then 0 else sizesQ.sum / n
  let avg_inter : ℚ :=
    if s.inter_arrivals.isEmpty then 0
    else s.inter_arrivals.sum / (s.inter_arrivals.length : ℚ)
  let max_pkt : ℤ := if s.packet_sizes.isEmpty then 0 else listMax s.packet_sizes
  let min_pkt : ℤ := if s.packet_sizes.isEmpty then 0 else listMin s.packet_sizes
  [("duration", .num duration),
   ("pkts", .num (s.pkts : ℚ)),
   ("total_bytes", .num (s.total_bytes : ℚ)),
   ("avg_pkt_size", .num avg_pkt_size),
   ("pkt_std", .sqrtOf pkt_var),
   ("pkt_mean", .num pkt_mean),
   ("pkt_var", .num pkt_var),
   ("avg_inter", .num avg_inter),
   ("max_pkt", .num (max_pkt : ℚ)),
   ("min_pkt", .num (min_pkt : ℚ)),
   ("tcp_flags", .flagsDict s.syn s.psh s.urg s.fin s.rst s.ack)]

/-- `FlowState.is_inactive(now, timeout)`. -/
def FlowState.is_inactive (s : FlowState) (now timeout : ℚ) : Bool :=
  now - s.last_ts > timeout

example : pyIntBase0? "0x018" = some 24 := by decide
example : pyIntBase0? "64" = some 64 := by decide
example : pyIntBase0? "zz" = none := by decide
example : pyFloat? "abc" = none := by decide
example : pyFloat? "" = none := by decide

/-! ## String comparison (Python semantics)

Python compares strings lexicographically by code point, and tuples
lexicographically componentwise; `_normalize_key` relies on both.  The order is
embedded directly over the character lists. -/

/-- Python `<` on strings, as lexicographic order over the character lists. -/
def charListLt : List Char → List Char → Bool
  | [], [] => false
  | [], _ :: _ => true
  | _ :: _, [] => false
  | a :: as, b :: bs => if a < b then true else if b < a then false else charListLt as bs

/-- Python `s < t` for strings. -/
def strLtB (s t : String) : Bool := charListLt s.toList t.toList

/-- Python `s <= t` for strings. -/
def strLeB (s t : String) : Bool := strLtB s t || s == t

/-- Python `(a1, a2) <= (b1, b2)` on pairs of strings: lexicographic,
comparing the second components only when the first are equal. -/
def pairLeB (a b : String × String) : Bool :=
  if strLtB a.1 b.1 then true
  else if a.1 = b.1 then strLeB a.2 b.2
  else false

/-! ## `FlowAggregator` (flow_aggregator.py lines 90-157) -/

/-- The normalized 5-tuple flow key. -/
abbrev FlowKey := String × String × String × String × String

/-- `FlowAggregator._normalize_key`: put the lexicographically smaller
`(address, port)` endpoint first. -/
def normalizeKey (src dst srcp dstp proto : String) : FlowKey :=
  if pairLeB (src, srcp) (dst, dstp) then (src, dst, srcp, dstp, proto)
  else (dst, src, dstp, srcp, proto)

/-- The aggregator: inactivity timeout and the `flows` dict, modelled as an
association list in insertion order with (invariantly) unique keys. -/
structure FlowAggregator where
  timeout : ℚ
  flows : List (FlowKey × FlowState)
deriving DecidableEq

/-- `FlowAggregator(timeout)`: empty flow dict. -/
def FlowAggregator.init (timeout : ℚ) : FlowAggregator := ⟨timeout, []⟩

/-- Python `key in d` / `d[key]` on the flows dict. -/
def lookupKey : List (FlowKey × FlowState) → FlowKey → Option FlowState
  | [], _ => none
  | kv :: rest, k => if k = kv.1 then some kv.2 else lookupKey rest k

/-- Python `d[key] = v` on the flows dict: replace in place, or append when the
key is new (dicts preserve insertion order). -/
def assocSet : List (FlowKey × FlowState) → FlowKey → FlowState →
    List (FlowKey × FlowState)
  | [], k, v => [(k, v)]
  | kv :: rest, k, v =>
    if k = kv.1 then (k, v) :: rest else kv :: assocSet rest k v

/-- Python `del d[key]` on the flows dict: drop the (unique) matching entry. -/
def eraseKey : List (FlowKey × FlowState) → FlowKey → List (FlowKey × FlowState)
  | [], _ => []
  | kv :: rest, k => if k = kv.1 then rest else kv :: eraseKey rest k

/-- One parsed packet row from tshark (`stream_packets` always yields exactly
the 10 `TSHARK_FIELDS` columns, padding missing ones with `''`). -/
structure Pkt where
  ts : String
  src : String
  dst : String
  tcp_src : String
  tcp_dst : String
  udp_src : String
  udp_dst : String
  proto : String
  len : String
  flags : String
deriving DecidableEq

/-- `add_packet` timestamp: `float(pkt[0])` when the field is non-blank and
parses, else the current time (`time.time()`, passed in as `now`). -/
def parsedTs (p : Pkt) (now : ℚ) : ℚ :=
  if p.ts = "" then now else (pyFloat? p.ts).getD now

/-- `add_packet` length: `int(pkt[8])` (base 10) when the field is non-blank
and parses, else `0`. -/
def parsedLen (p : Pkt) : ℤ :=
  if p.len = "" then 0 else (pyInt10? p.len).getD 0

/-- `srcp = tcp_src or udp_src or '0'`. -/
def srcPortOf (p : Pkt) : String :=
  if p.tcp_src ≠ "" then p.tcp_src else if p.udp_src ≠ "" then p.udp_src else "0"

/-- `dstp = tcp_dst or udp_dst or '0'`. -/
def dstPortOf (p : Pkt) : String :=
  if p.tcp_dst ≠ "" then p.tcp_dst else if p.udp_dst ≠ "" then p.udp_dst else "0"

/-- The normalized key `add_packet` files the packet under. -/
def pktKey (p : Pkt) : FlowKey :=
  normalizeKey p.src p.dst (srcPortOf p) (dstPortOf p) p.proto

/-- `FlowAggregator.add_packet(pkt_tuple)`: default every malformed field,
create the flow on first sight (with `first_ts = ts`), then fold the packet in.
`now` stands for `time.time()`. -/
def FlowAggregator.add_packet (agg : FlowAggregator) (p : Pkt) (now : ℚ) :
    FlowAggregator :=
  let ts := parsedTs p now
  let key := pktKey p
  let st :=
    match lookupKey agg.flows key with
    | some s => s
    | none => FlowState.init ts
  { agg with flows := assocSet agg.flows key (st.add_packet (parsedLen p) ts (some p.flags)) }

/-- `summarize_active_flows()`: non-destructive summaries of every live flow
(the orchestrator's `poll_active`). -/
def FlowAggregator.summarize_active_flows (agg : FlowAggregator) :
    List (FlowKey × Summary) :=
  agg.flows.map (fun kf => (kf.1, kf.2.summarize))

/-- `collect_inactive_flows()`: summarize every flow with
`now - last_ts > timeout` (in iteration order), then delete those keys from the
dict.  `now` stands for `time.time()`. -/
def FlowAggregator.collect_inactive_flows (agg : FlowAggregator) (now : ℚ) :
    List (FlowKey × Summary) × FlowAggregator :=
  let expired :=
    (agg.flows.filter (fun kf => kf.2.is_inactive now agg.timeout)).map Prod.fst
  let result :=
    (agg.flows.filter (fun kf => kf.2.is_inactive now agg.timeout)).map
      (fun kf => (kf.1, kf.2.summarize))
  (result, { agg with flows := expired.foldl eraseKey agg.flows })

/-- `flush_all()`: summarize everything and clear the dict. -/
def FlowAggregator.flush_all (agg : FlowAggregator) :
    List (FlowKey × Summary) × FlowAggregator :=
  (agg.flows.map (fun kf => (kf.1, kf.2.summarize)), { agg with flows := [] })

/-! ## `extract_features` (feature_extractor.py lines 32-104) -/

/-- One feature read: `float(flow_summary.get(k, 0) or 0)` — the value when the
key is present (a falsy `0` is mapped to `0` again, numerically the same), and
`0.0` when absent. -/
noncomputable def featGet (d : Summary) (k : String) : ℝ :=
  match lookupStr d k with
  | some v => v.toReal
  | none => 0

/-- `extract_features(norm_key, flow_summary)`: the 20 features in the exact
`SELECTED_FEATURES` order, each read from the summary dict by name with a
silent `0.0` default.  `norm_key` is unused, as in the source. -/
noncomputable def extract_features (norm_key : FlowKey) (d : Summary) : List ℝ :=
  [featGet d "dest_port",      -- Destination Port
   featGet d "fwd_pkt_max",    -- Fwd Packet Length Max
   featGet d "fwd_pkt_mean",   -- Fwd Packet Length Mean
   featGet d "bwd_pkt_max",    -- Bwd Packet Length Max
   featGet d "bwd_pkt_min",    -- Bwd Packet Length Min
   featGet d "bwd_pkt_mean",   -- Bwd Packet Length Mean
   featGet d "bwd_pkt_std",    -- Bwd Packet Length Std
   featGet d "fwd_iat_std",    -- Fwd IAT Std
   featGet d "bwd_iat_total",  -- Bwd IAT Total
   featGet d "bwd_iat_max",    -- Bwd IAT Max
   featGet d "min_pkt",        -- Min Packet Length
   featGet d "max_pkt",        -- Max Packet Length
   featGet d "pkt_mean",       -- Packet Length Mean
   featGet d "pkt_std",        -- Packet Length Std
   featGet d "pkt_var",        -- Packet Length Variance
   featGet d "psh_count",      -- PSH Flag Count
   featGet d "urg_count",      -- URG Flag Count
   featGet d "avg_pkt_size",   -- Average Packet Size
   featGet d "avg_fwd_seg",    -- Avg Fwd Segment Size
   featGet d "avg_bwd_seg"]    -- Avg Bwd Segment Size

/-! ## `Predictor.predict` (predictor.py lines 63-95) and the decision policy
(main.py lines 63-77) -/

/-- The dict returned by `Predictor.predict`.  The two probabilities come from
the external joblib models (`predict_proba`), so they are inputs here; the
labels are computed exactly as in the source: `int(proba >= threshold)`. -/
structure PredResult where
  lr_proba : ℚ
  lr_label : ℕ
  dt_proba : ℚ
  dt_label : ℕ
deriving DecidableEq

/-- `Predictor.predict(fv, threshold)` given the two model probabilities. -/
def Predictor.predict (lr_proba dt_proba threshold : ℚ) : PredResult :=
  { lr_proba := lr_proba,
    lr_label := if lr_proba ≥ threshold then 1 else 0,
    dt_proba := dt_proba,
    dt_label := if dt_proba ≥ threshold then 1 else 0 }

/-- main.py: `label = "MALICIOUS" if (lr_label == 1 or dt_label == 1) else
"BENIGN"`. -/
def finalLabel (res : PredResult) : String :=
  if res.lr_label = 1 ∨ res.dt_label = 1 then "MALICIOUS" else "BENIGN"

/-! ## `XDPManager` (xdp_filter_manager.py) -/

/-- Manager state: the interface name and the `is_loaded` flag — the only
mutable state the class has. -/
structure XDPManager where
  interface : String
  is_loaded : Bool
deriving DecidableEq

/-- Result of `_execute_xdp_command` for one subprocess run, supplied by the
external data plane: success flag and stderr text. -/
structure ExecResult where
  ok : Bool
  stderr : String
deriving DecidableEq

/-- Whether `pat` is an initial segment of `l`. -/
def listPrefixOf : List Char → List Char → Bool
  | [], _ => true
  | _ :: _, [] => false
  | a :: as, b :: bs => a == b && listPrefixOf as bs

/-- Whether `pat` occurs contiguously inside the second list. -/
def listContains (pat : List Char) : List Char → Bool
  | [] => pat.isEmpty
  | c :: rest => listPrefixOf pat (c :: rest) || listContains pat rest

/-- Python `"is already loaded on" in stderr`. -/
def mentionsAlreadyLoaded (stderr : String) : Bool :=
  listContains "is already loaded on".toList stderr.toList

/-- `initialize_xdp_filter()`: issues `load <iface> -m skb`; on success, or on
failure whose stderr says the filter is already loaded, sets `is_loaded` and
returns `True`; otherwise returns `False` leaving the state as it was.  The
third component is the list of external commands issued by the call. -/
def XDPManager.initialize_xdp_filter (m : XDPManager) (r : ExecResult) :
    XDPManager × Bool × List String :=
  let cmd := "load " ++ m.interface ++ " -m skb"
  if r.ok then ({ m with is_loaded := true }, true, [cmd])
  else if mentionsAlreadyLoaded r.stderr then ({ m with is_loaded := true }, true, [cmd])
  else (m, false, [cmd])

/-- `block_ip(ip_address)`: warns and returns `False` when the filter is not
loaded; otherwise issues `ip --mode src <ip>` and returns the subprocess
success.  The state is returned unchanged in both branches — the class keeps no
record of previously blocked addresses.  The third component is the list of
external commands issued by the call. -/
def XDPManager.block_ip (m : XDPManager) (ip : String) (r : ExecResult) :
    XDPManager × Bool × List String :=
  if m.is_loaded = false then (m, false, [])
  else (m, r.ok, ["ip --mode src " ++ ip])

/-- main.py mitigation step for one summarized flow: destructure the normalized
key as `src, dst, srcp, dstp, proto` and call `block_ip(src)` when the final
label is `MALICIOUS`.  Returns the manager and the external commands issued. -/
def mitigationStep (m : XDPManager) (key : FlowKey) (label : String)
    (r : ExecResult) : XDPManager × List String :=
  if label = "MALICIOUS" then
    let res := m.block_ip key.1 r
    (res.1, res.2.2)
  else (m, [])

/-! ## Order lemmas for the key normalizer -/

theorem charListLt_asymm : ∀ a b : List Char, charListLt a b = true → charListLt b a = false
  | [], [] => by simp [charListLt]
  | [], _ :: _ => by simp [charListLt]
  | _ :: _, [] => by simp [charListLt]
  | a :: as, b :: bs => by
    simp only [charListLt]
    by_cases hab : a < b
    · simp [hab, lt_asymm hab]
    · by_cases hba : b < a
      · simp [hab, hba]
      · simp only [if_neg hab, if_neg hba]
        exact charListLt_asymm as bs

theorem charListLt_total : ∀ a b : List Char,
    charListLt a b = false → charListLt b a = true ∨ a = b
  | [], [] => fun _ => Or.inr rfl
  | [], _ :: _ => by simp [charListLt]
  | _ :: _, [] => by simp [charListLt]
  | a :: as, b :: bs => by
    simp only [charListLt]
    by_cases hab : a < b
    · simp [hab]
    · by_cases hba : b < a
      · simp [hab, hba]
      · intro h
        rw [if_neg hab, if_neg hba] at h
        have hEq : b = a := le_antisymm (not_lt.1 hab) (not_lt.1 hba)
        subst hEq
        rw [if_neg hba, if_neg hba]
        rcases charListLt_total as bs h with h' | h'
        · exact Or.inl h'
        · exact Or.inr (by rw [h'])

theorem charListLt_irrefl : ∀ a : List Char, charListLt a a = false
  | [] => rfl
  | a :: as => by simp [charListLt, lt_irrefl, charListLt_irrefl as]

theorem strLtB_asymm (s t : String) (h : strLtB s t = true) : strLtB t s = false :=
  charListLt_asymm _ _ h

theorem strLtB_irrefl (s : String) : strLtB s s = false := charListLt_irrefl _

theorem strLtB_total (s t : String) (h1 : strLtB s t = false)
    (h2 : s ≠ t) : strLtB t s = true := by
  rcases charListLt_total s.toList t.toList h1 with h' | h'
  · exact h'
  · exact absurd (by cases s; cases t; exact congrArg String.mk h') h2

theorem strLeB_total (s t : String) (h : strLeB s t = false) : strLeB t s = true := by
  simp only [strLeB, Bool.or_eq_false_iff, beq_eq_false_iff_ne, ne_eq] at h
  simp only [strLeB, Bool.or_eq_true, beq_iff_eq]
  exact Or.inl (strLtB_total s t h.1 h.2)

theorem strLeB_antisymm (s t : String) (h1 : strLeB s t = true)
    (h2 : strLeB t s = true) : s = t := by
  simp only [strLeB, Bool.or_eq_true, beq_iff_eq] at h1 h2
  rcases h1 with h1 | h1
  · rcases h2 with h2 | h2
    · exact absurd h2 (by simp [strLtB_asymm _ _ h1])
    · exact h2.symm
  · exact h1

theorem pairLeB_total (a b : String × String) (h : pairLeB a b = false) :
    pairLeB b a = true := by
  simp only [pairLeB] at h ⊢
  by_cases h1 : strLtB a.1 b.1 = true
  · simp [h1] at h
  · rw [if_neg (by simp [h1])] at h
    by_cases h2 : a.1 = b.1
    · rw [if_pos h2] at h
      rw [if_neg (by simp [h2, strLtB_irrefl]), if_pos h2.symm]
      exact strLeB_total _ _ h
    · rw [if_pos (strLtB_total a.1 b.1 (by simpa using h1) h2)]

theorem pairLeB_antisymm (a b : String × String) (h1 : pairLeB a b = true)
    (h2 : pairLeB b a = true) : a = b := by
  simp only [pairLeB] at h1 h2
  by_cases hlt : strLtB a.1 b.1 = true
  · exfalso
    have hba := strLtB_asymm _ _ hlt
    rw [if_neg (by simp [hba])] at h2
    by_cases heq : b.1 = a.1
    · rw [heq] at hlt
      simp [strLtB_irrefl] at hlt
    · rw [if_neg heq] at h2
      exact Bool.false_ne_true h2
  · rw [if_neg (by simpa using hlt)] at h1
    by_cases heq : a.1 = b.1
    · rw [if_pos heq] at h1
      rw [if_neg (by simp [heq, strLtB_irrefl]), if_pos heq.symm] at h2
      exact Prod.ext heq (strLeB_antisymm _ _ h1 h2)
    · rw [if_neg heq] at h1
      exact absurd h1 Bool.false_ne_true


/-- Claim C4: for all addresses, ports and protocol,
`normalize(A, B, pA, pB, proto) = normalize(B, A, pB, pA, proto)` — packets
from either direction of a conversation map to the same flow key. -/
theorem normalize_key_direction_invariant (A B pA pB proto : String) :
    normalizeKey A B pA pB proto = normalizeKey B A pB pA proto := by
  unfold normalizeKey
  by_cases h1 : pairLeB (A, pA) (B, pB) = true
  · by_cases h2 : pairLeB (B, pB) (A, pA) = true
    · have h := pairLeB_antisymm _ _ h1 h2
      have hA : A = B := congrArg Prod.fst h
      have hp : pA = pB := congrArg Prod.snd h
      rw [if_pos h1, if_pos h2, hA, hp]
    · rw [if_pos h1, if_neg h2]
  · have h2 := pairLeB_total _ _ (by simpa using h1)
    rw [if_neg h1, if_pos h2]

/-- Claim C10: the address main.py hands to `block_ip` for a malicious flow is
the first component of the normalized key — the endpoint whose (address, port)
pair compares lowest — and for the flow whose packets originate from
`9.9.9.9:80` towards `1.2.3.4:5000` that is `1.2.3.4`, not the packets'
source address `9.9.9.9`. -/
theorem blocked_address_is_first_of_normalized_key :
    (∀ src dst srcp dstp proto : String,
      (normalizeKey src dst srcp dstp proto).1 =
        if pairLeB (src, srcp) (dst, dstp) then src else dst) ∧
    (mitigationStep ⟨"eth0", true⟩ (normalizeKey "9.9.9.9" "1.2.3.4" "80" "5000" "6")
        "MALICIOUS" ⟨true, ""⟩).2 = ["ip --mode src " ++ "1.2.3.4"] ∧
    ("1.2.3.4" : String) ≠ "9.9.9.9" := by
  refine ⟨fun src dst srcp dstp proto => ?_, ?_, by decide⟩
  · unfold normalizeKey
    by_cases h : pairLeB (src, srcp) (dst, dstp) = true
    · rw [if_pos h, if_pos h]
    · rw [if_neg h, if_neg h]
  · have hkey : normalizeKey "9.9.9.9" "1.2.3.4" "80" "5000" "6" =
        ("1.2.3.4", "9.9.9.9", "5000", "80", "6") := by
      unfold normalizeKey
      rw [if_neg ?_]
      simp only [pairLeB]
      rw [if_neg ?_, if_neg ?_]
      · simp
      · decide
      · simp only [strLtB]
        decide
    rw [hkey]
    rfl

/-- Claim C2 (counterexample): `block_ip` keeps no record of blocked
addresses — after a successful `block_ip("1.2.3.4")` the manager state is
unchanged, and a second call for the very same address issues the external
block command again instead of skipping it. -/
theorem block_ip_reinvokes_external_action :
    (((XDPManager.mk "eth0" true).block_ip "1.2.3.4" ⟨true, ""⟩).1 =
      XDPManager.mk "eth0" true) ∧
    (((XDPManager.mk "eth0" true).block_ip "1.2.3.4" ⟨true, ""⟩).2.2 =
      ["ip --mode src " ++ "1.2.3.4"]) ∧
    ((((XDPManager.mk "eth0" true).block_ip "1.2.3.4" ⟨true, ""⟩).1.block_ip
        "1.2.3.4" ⟨true, ""⟩).2.2 = ["ip --mode src " ++ "1.2.3.4"]) := by
  refine ⟨rfl, rfl, rfl⟩

/-- Claim C2 (amended): `block_ip` consults only the `is_loaded` flag and keeps
no set of blocked addresses: when the filter is not loaded it is a no-op
returning failure; when it is loaded, every call — including one for an
address blocked before — issues the external block command once more and
returns the external result; the manager state is unchanged either way. -/
theorem block_ip_stateless_every_call_reinvokes (m : XDPManager) (ip : String)
    (r : ExecResult) :
    ((m.block_ip ip r).1 = m) ∧
    (m.is_loaded = false → m.block_ip ip r = (m, false, [])) ∧
    (m.is_loaded = true → m.block_ip ip r = (m, r.ok, ["ip --mode src " ++ ip])) := by
  unfold XDPManager.block_ip
  cases hm : m.is_loaded <;> simp [hm]

/-- Witness for `block_ip_stateless_every_call_reinvokes` at a loaded manager
and a concrete address. -/
theorem block_ip_stateless_witness :
    ((XDPManager.mk "wlan0" true).block_ip "5.6.7.8" ⟨true, ""⟩).1 =
      XDPManager.mk "wlan0" true ∧
    (XDPManager.mk "wlan0" true).block_ip "5.6.7.8" ⟨true, ""⟩ =
      (XDPManager.mk "wlan0" true, true, ["ip --mode src " ++ "5.6.7.8"]) :=
  ⟨(block_ip_stateless_every_call_reinvokes (XDPManager.mk "wlan0" true) "5.6.7.8"
      ⟨true, ""⟩).1,
   (block_ip_stateless_every_call_reinvokes (XDPManager.mk "wlan0" true) "5.6.7.8"
      ⟨true, ""⟩).2.2 rfl⟩

/-- Claim C6: with labels produced by `Predictor.predict`, the final label is
`MALICIOUS` iff at least one of the two models labels `1` (OR policy, not a
majority vote), and `BENIGN` iff both label `0`. -/
theorem final_label_or_policy (lr dt th : ℚ) :
    (finalLabel (Predictor.predict lr dt th) = "MALICIOUS" ↔
      ((Predictor.predict lr dt th).lr_label = 1 ∨
        (Predictor.predict lr dt th).dt_label = 1)) ∧
    (finalLabel (Predictor.predict lr dt th) = "BENIGN" ↔
      ((Predictor.predict lr dt th).lr_label = 0 ∧
        (Predictor.predict lr dt th).dt_label = 0)) := by
  have hne : ("MALICIOUS" : String) ≠ "BENIGN" := by decide
  unfold finalLabel Predictor.predict
  by_cases h1 : lr ≥ th <;> by_cases h2 : dt ≥ th <;>
    simp [h1, h2, hne, hne.symm]

/-- Claim C7: `initialize_xdp_filter` returns success exactly when the load
command succeeds or its stderr reports the filter already loaded (the
idempotent-success case, which also sets `is_loaded`); any other failure
returns `False` and leaves `is_loaded` as it was — in particular not Loaded
when starting from a fresh manager. -/
theorem initialize_treats_already_loaded_as_success (m : XDPManager)
    (r : ExecResult) :
    ((m.initialize_xdp_filter r).2.1 = (r.ok || mentionsAlreadyLoaded r.stderr)) ∧
    ((m.initialize_xdp_filter r).1.is_loaded =
      (r.ok || mentionsAlreadyLoaded r.stderr || m.is_loaded)) := by
  unfold XDPManager.initialize_xdp_filter
  cases hr : r.ok <;> cases hm : mentionsAlreadyLoaded r.stderr <;> simp [hr, hm]

/-! ## Dictionary lemmas for the flow table -/

theorem lookupKey_assocSet : ∀ (l : List (FlowKey × FlowState)) (k : FlowKey)
    (v : FlowState), lookupKey (assocSet l k v) k = some v
  | [], k, v => by simp [assocSet, lookupKey]
  | kv :: rest, k, v => by
    by_cases h : k = kv.1
    · simp [assocSet, lookupKey, h]
    · simp [assocSet, lookupKey, h, lookupKey_assocSet rest k v]

theorem keyInj (l : List (FlowKey × FlowState)) (h : (l.map Prod.fst).Nodup)
    {x y : FlowKey × FlowState} (hx : x ∈ l) (hy : y ∈ l) (hk : x.1 = y.1) :
    x = y := by
  induction l with
  | nil => cases hx
  | cons a t ih =>
    rw [List.map_cons, List.nodup_cons] at h
    rcases List.mem_cons.1 hx with rfl | hx' <;> rcases List.mem_cons.1 hy with rfl | hy'
    · rfl
    · exfalso
      have hy1 : y.1 ∈ t.map Prod.fst := List.mem_map_of_mem Prod.fst hy'
      rw [← hk] at hy1
      exact h.1 hy1
    · exfalso
      have hx1 : x.1 ∈ t.map Prod.fst := List.mem_map_of_mem Prod.fst hx'
      rw [hk] at hx1
      exact h.1 hx1
    · exact ih h.2 hx' hy'

theorem eraseKey_eq_filter (l : List (FlowKey × FlowState)) (k : FlowKey)
    (h : (l.map Prod.fst).Nodup) :
    eraseKey l k = l.filter (fun kf => kf.1 ≠ k) := by
  induction l with
  | nil => rfl
  | cons a t ih =>
    rw [List.map_cons, List.nodup_cons] at h
    by_cases hk : k = a.1
    · simp only [eraseKey, if_pos hk, List.filter_cons]
      rw [if_neg (by simp [hk])]
      rw [eq_comm, List.filter_eq_self]
      intro b hb
      simp only [ne_eq, decide_eq_true_eq]
      intro hbk
      apply h.1
      rw [← hk, ← hbk]
      exact List.mem_map_of_mem Prod.fst hb
    · have hpa : a.1 ≠ k := fun hh => hk hh.symm
      simp only [eraseKey, if_neg hk, List.filter_cons]
      rw [if_pos (by simp [hpa]), ih h.2]

theorem nodup_keys_filter (l : List (FlowKey × FlowState))
    (h : (l.map Prod.fst).Nodup) (p : FlowKey × FlowState → Bool) :
    ((l.filter p).map Prod.fst).Nodup :=
  h.sublist ((l.filter_sublist).map Prod.fst)

theorem foldl_eraseKey_eq_filter : ∀ (ks : List FlowKey)
    (l : List (FlowKey × FlowState)), (l.map Prod.fst).Nodup →
    ks.foldl eraseKey l = l.filter (fun kf => kf.1 ∉ ks)
  | [], l, _ => by simp
  | k :: ks, l, h => by
    rw [List.foldl_cons]
    have herase := eraseKey_eq_filter l k h
    have hnd : ((eraseKey l k).map Prod.fst).Nodup := by
      rw [herase]; exact nodup_keys_filter l h _
    rw [foldl_eraseKey_eq_filter ks _ hnd, herase, List.filter_filter]
    apply List.filter_congr
    intro a _
    by_cases h1 : a.1 = k <;> by_cases h2 : a.1 ∈ ks <;>
      simp [h1, h2, List.mem_cons]

/-- `is_inactive` unfolded to the strict inequality of the source. -/
theorem is_inactive_iff (s : FlowState) (now timeout : ℚ) :
    s.is_inactive now timeout = true ↔ now - s.last_ts > timeout := by
  simp [FlowState.is_inactive]

/-- Claim C3: `collect_inactive_flows` returns exactly the flows with
`now - last_ts > timeout` (strictly), each exactly once; those flows are
deleted, so they are absent from every later `summarize_active_flows` poll,
while every flow with `now - last_ts ≤ timeout` stays in the table
untouched (the remaining table is the subsequence of untouched entries). -/
theorem evict_inactive_exact (agg : FlowAggregator) (now : ℚ)
    (hnd : (agg.flows.map Prod.fst).Nodup) :
    (∀ k s, (k, s) ∈ agg.flows →
      (((k, FlowState.summarize s) ∈ (agg.collect_inactive_flows now).1) ↔
        now - s.last_ts > agg.timeout)) ∧
    (((agg.collect_inactive_flows now).1.map Prod.fst).Nodup) ∧
    ((agg.collect_inactive_flows now).2.flows =
      agg.flows.filter (fun kf => ¬ now - kf.2.last_ts > agg.timeout)) ∧
    (∀ k d, (k, d) ∈ (agg.collect_inactive_flows now).1 →
      ∀ d2, (k, d2) ∉ (agg.collect_inactive_flows now).2.summarize_active_flows) := by
  have hPB : ∀ a : FlowKey × FlowState,
      ((fun kf : FlowKey × FlowState => kf.2.is_inactive now agg.timeout) a = true) ↔
        now - a.2.last_ts > agg.timeout := fun a => is_inactive_iff a.2 now agg.timeout
  have hres : (agg.collect_inactive_flows now).1 =
      (agg.flows.filter (fun kf => kf.2.is_inactive now agg.timeout)).map
        (fun kf => (kf.1, kf.2.summarize)) := rfl
  have hflows : (agg.collect_inactive_flows now).2.flows =
      ((agg.flows.filter (fun kf => kf.2.is_inactive now agg.timeout)).map
        Prod.fst).foldl eraseKey agg.flows := rfl
  have hmemKeys : ∀ a ∈ agg.flows,
      (a.1 ∈ (agg.flows.filter
          (fun kf => kf.2.is_inactive now agg.timeout)).map Prod.fst ↔
        (a.2.is_inactive now agg.timeout) = true) := by
    intro a ha
    constructor
    · intro hmem
      rcases List.mem_map.1 hmem with ⟨b, hb, hba⟩
      obtain ⟨hbl, hpb⟩ := List.mem_filter.1 hb
      have hba' : b = a := keyInj agg.flows hnd hbl ha hba
      rwa [hba'] at hpb
    · intro hpa
      exact List.mem_map_of_mem Prod.fst (List.mem_filter.2 ⟨ha, hpa⟩)
  have hc3 : (agg.collect_inactive_flows now).2.flows =
      agg.flows.filter (fun kf => ¬ now - kf.2.last_ts > agg.timeout) := by
    rw [hflows, foldl_eraseKey_eq_filter _ _ hnd]
    apply List.filter_congr
    intro a ha
    by_cases hpa : (a.2.is_inactive now agg.timeout) = true
    · have h1 := (hmemKeys a ha).2 hpa
      have h2 := (hPB a).1 hpa
      simp [h1, h2]
    · have h1 : a.1 ∉ (agg.flows.filter
          (fun kf => kf.2.is_inactive now agg.timeout)).map Prod.fst :=
        fun hmem => hpa ((hmemKeys a ha).1 hmem)
      have h2 : ¬ now - a.2.last_ts > agg.timeout := fun hh => hpa ((hPB a).2 hh)
      simp [h1, h2]
  refine ⟨?_, ?_, hc3, ?_⟩
  · intro k s hks
    rw [hres]
    constructor
    · intro hmem
      rcases List.mem_map.1 hmem with ⟨b, hb, hba⟩
      obtain ⟨hbl, hpb⟩ := List.mem_filter.1 hb
      have hb1 : b.1 = k := congrArg Prod.fst hba
      have hbks : b = (k, s) := keyInj agg.flows hnd hbl hks hb1
      rw [hbks] at hpb
      exact (hPB (k, s)).1 hpb
    · intro hineq
      exact List.mem_map.2
        ⟨(k, s), List.mem_filter.2 ⟨hks, (hPB (k, s)).2 hineq⟩, rfl⟩
  · rw [hres, List.map_map]
    exact nodup_keys_filter agg.flows hnd _
  · intro k d hkd d2 hk2
    rw [hres] at hkd
    rcases List.mem_map.1 hkd with ⟨b, hb, hbeq⟩
    obtain ⟨hbl, hpb⟩ := List.mem_filter.1 hb
    have hb1 : b.1 = k := congrArg Prod.fst hbeq
    have hpoll : (agg.collect_inactive_flows now).2.summarize_active_flows =
        (agg.flows.filter (fun kf => ¬ now - kf.2.last_ts > agg.timeout)).map
          (fun kf => (kf.1, kf.2.summarize)) := by
      unfold FlowAggregator.summarize_active_flows
      rw [hc3]
    rw [hpoll] at hk2
    rcases List.mem_map.1 hk2 with ⟨c, hcmem, hceq⟩
    obtain ⟨hcl, hcneg⟩ := List.mem_filter.1 hcmem
    have hc1 : c.1 = k := congrArg Prod.fst hceq
    have hbc : b = c := keyInj agg.flows hnd hbl hcl (by rw [hb1, hc1])
    rw [hbc] at hpb
    have h1 := (hPB c).1 hpb
    have h2 : ¬ now - c.2.last_ts > agg.timeout := by simpa using hcneg
    exact h2 h1

/-- A table with one stale flow (`last_ts = 0`) and one fresh flow
(`last_ts = 100`), timeout 30, polled at `now = 31`. -/
def aggEvict : FlowAggregator :=
  ⟨30, [(("1.2.3.4", "9.9.9.9", "5000", "80", "6"), FlowState.init 0),
        (("2.2.2.2", "3.3.3.3", "1", "2", "17"), FlowState.init 100)]⟩

/-- Witness for `evict_inactive_exact` on `aggEvict` at `now = 31`
(`31 - 0 = 31 > 30` evicts the first flow, the second stays). -/
theorem evict_inactive_exact_witness :
    (∀ k s, (k, s) ∈ aggEvict.flows →
      (((k, FlowState.summarize s) ∈ (aggEvict.collect_inactive_flows 31).1) ↔
        31 - s.last_ts > aggEvict.timeout)) ∧
    (((aggEvict.collect_inactive_flows 31).1.map Prod.fst).Nodup) ∧
    ((aggEvict.collect_inactive_flows 31).2.flows =
      aggEvict.flows.filter (fun kf => ¬ (31 : ℚ) - kf.2.last_ts > aggEvict.timeout)) ∧
    (∀ k d, (k, d) ∈ (aggEvict.collect_inactive_flows 31).1 →
      ∀ d2, (k, d2) ∉ (aggEvict.collect_inactive_flows 31).2.summarize_active_flows) :=
  evict_inactive_exact aggEvict 31 (by decide)

/-! ## `FlowState` invariants -/

/-- A flow built by an arbitrary sequence of `add_packet` calls from a fresh
state; each list entry is one call's `(pkt_len, ts, tcp_flags_raw)`. -/
def runFlow (t0 : ℚ) (ps : List (ℤ × ℚ × Option String)) : FlowState :=
  ps.foldl (fun s p => s.add_packet p.1 p.2.1 p.2.2) (FlowState.init t0)

/-- Field-level effect of one `add_packet` call (the flag branch touches only
the six counters). -/
theorem add_packet_fields (s : FlowState) (len : ℤ) (ts : ℚ) (fl : Option String) :
    (s.add_packet len ts fl).pkts = s.pkts + 1 ∧
    (s.add_packet len ts fl).total_bytes = s.total_bytes + len ∧
    (s.add_packet len ts fl).packet_sizes = s.packet_sizes ++ [len] ∧
    (s.add_packet len ts fl).inter_arrivals =
      (if s.pkts + 1 > 1 then s.inter_arrivals ++ [ts - s.last_pkt_ts]
       else s.inter_arrivals) ∧
    (s.add_packet len ts fl).last_ts = ts ∧
    (s.add_packet len ts fl).last_pkt_ts = ts ∧
    (s.add_packet len ts fl).first_ts = s.first_ts := by
  cases fl with
  | none => exact ⟨rfl, rfl, rfl, rfl, rfl, rfl, rfl⟩
  | some raw =>
    unfold FlowState.add_packet
    simp only []
    by_cases hr : raw = ""
    · rw [if_pos hr]
      exact ⟨rfl, rfl, rfl, rfl, rfl, rfl, rfl⟩
    · rw [if_neg hr]
      cases hp : pyIntBase0? raw with
      | none => exact ⟨rfl, rfl, rfl, rfl, rfl, rfl, rfl⟩
      | some flags => exact ⟨rfl, rfl, rfl, rfl, rfl, rfl, rfl⟩

theorem foldl_flow_invariant : ∀ (ps : List (ℤ × ℚ × Option String)) (s : FlowState),
    s.pkts = s.packet_sizes.length →
    s.total_bytes = s.packet_sizes.sum →
    s.inter_arrivals.length = s.pkts - 1 →
    ((ps.foldl (fun s p => s.add_packet p.1 p.2.1 p.2.2) s).pkts =
      (ps.foldl (fun s p => s.add_packet p.1 p.2.1 p.2.2) s).packet_sizes.length ∧
     (ps.foldl (fun s p => s.add_packet p.1 p.2.1 p.2.2) s).total_bytes =
      (ps.foldl (fun s p => s.add_packet p.1 p.2.1 p.2.2) s).packet_sizes.sum ∧
     (ps.foldl (fun s p => s.add_packet p.1 p.2.1 p.2.2) s).inter_arrivals.length =
      (ps.foldl (fun s p => s.add_packet p.1 p.2.1 p.2.2) s).pkts - 1)
  | [], _, h1, h2, h3 => ⟨h1, h2, h3⟩
  | p :: ps, s, h1, h2, h3 => by
    rw [List.foldl_cons]
    obtain ⟨hp, hb, hsz, hia, _, _, _⟩ := add_packet_fields s p.1 p.2.1 p.2.2
    apply foldl_flow_invariant ps
    · rw [hp, hsz, List.length_append, h1]
      rfl
    · rw [hb, hsz, List.sum_append, h2]
      simp
    · rw [hia, hp]
      by_cases hpk : s.pkts + 1 > 1
      · rw [if_pos hpk, List.length_append, h3]
        simp only [List.length_cons, List.length_nil]
        omega
      · rw [if_neg hpk, h3]
        omega

theorem foldl_flow_last_ts : ∀ (ps : List (ℤ × ℚ × Option String)) (s : FlowState),
    (ps.foldl (fun s p => s.add_packet p.1 p.2.1 p.2.2) s).last_ts =
      (ps.map (fun p => p.2.1)).getLastD s.last_ts
  | [], _ => rfl
  | p :: ps, s => by
    rw [List.foldl_cons, List.map_cons, List.getLastD_cons,
      foldl_flow_last_ts ps _, (add_packet_fields s p.1 p.2.1 p.2.2).2.2.2.2.1]

/-- Claim C9: on every state reachable by `add_packet` calls from a fresh
state, `pkts` is the number of recorded sizes, `total_bytes` their sum, the
inter-arrival list is one shorter than the packet count (truncated at zero),
and `last_ts` is the last packet's timestamp (`first_ts` when none arrived). -/
theorem flow_state_reachable_invariants (t0 : ℚ)
    (ps : List (ℤ × ℚ × Option String)) :
    (runFlow t0 ps).pkts = (runFlow t0 ps).packet_sizes.length ∧
    (runFlow t0 ps).total_bytes = (runFlow t0 ps).packet_sizes.sum ∧
    (runFlow t0 ps).inter_arrivals.length = (runFlow t0 ps).pkts - 1 ∧
    (runFlow t0 ps).last_ts = (ps.map (fun p => p.2.1)).getLastD t0 := by
  obtain ⟨h1, h2, h3⟩ := foldl_flow_invariant ps (FlowState.init t0) rfl rfl rfl
  exact ⟨h1, h2, h3, foldl_flow_last_ts ps (FlowState.init t0)⟩

/-! ## `add_packet` robustness -/

/-- Falsy or unparseable raw flags leave every flag counter unchanged. -/
theorem add_packet_flags_ignored (s : FlowState) (len : ℤ) (ts : ℚ) (raw : String)
    (h : raw = "" ∨ pyIntBase0? raw = none) :
    (s.add_packet len ts (some raw)).syn = s.syn ∧
    (s.add_packet len ts (some raw)).psh = s.psh ∧
    (s.add_packet len ts (some raw)).urg = s.urg ∧
    (s.add_packet len ts (some raw)).fin = s.fin ∧
    (s.add_packet len ts (some raw)).rst = s.rst ∧
    (s.add_packet len ts (some raw)).ack = s.ack := by
  unfold FlowState.add_packet
  simp only []
  by_cases hr : raw = ""
  · rw [if_pos hr]
    exact ⟨rfl, rfl, rfl, rfl, rfl, rfl⟩
  · rcases h with h | h
    · exact absurd h hr
    · rw [if_neg hr, h]
      exact ⟨rfl, rfl, rfl, rfl, rfl, rfl⟩

/-- Claim C8: for every packet record and table state -- no matter which
fields are blank or unparseable, singly or in any combination --
`FlowAggregator.add_packet` folds the record into the flow under its
normalized key: the flow is present afterwards with its packet count up by
one.  Each malformed field is defaulted independently of the others: a
blank or unparseable timestamp defaults to the current time `now`, a blank
or unparseable length is recorded as `0`, blank ports collapse to `"0"`,
and falsy or unparseable raw flags leave every flag counter untouched.
(The embedding is a total function, mirroring that the Python code catches
every parse error locally and never raises or aborts the loop.) -/
theorem add_packet_never_fails_defaults (agg : FlowAggregator) (p : Pkt)
    (now : ℚ) :
    ∃ st : FlowState,
      lookupKey (agg.add_packet p now).flows (pktKey p) = some st ∧
      st.pkts = ((lookupKey agg.flows (pktKey p)).getD
        (FlowState.init (parsedTs p now))).pkts + 1 ∧
      ((p.ts = "" ∨ pyFloat? p.ts = none) → st.last_ts = now) ∧
      ((p.len = "" ∨ pyInt10? p.len = none) →
        st.packet_sizes = ((lookupKey agg.flows (pktKey p)).getD
          (FlowState.init (parsedTs p now))).packet_sizes ++ [0]) ∧
      ((p.flags = "" ∨ pyIntBase0? p.flags = none) →
        st.syn = ((lookupKey agg.flows (pktKey p)).getD
          (FlowState.init (parsedTs p now))).syn ∧
        st.psh = ((lookupKey agg.flows (pktKey p)).getD
          (FlowState.init (parsedTs p now))).psh ∧
        st.urg = ((lookupKey agg.flows (pktKey p)).getD
          (FlowState.init (parsedTs p now))).urg ∧
        st.fin = ((lookupKey agg.flows (pktKey p)).getD
          (FlowState.init (parsedTs p now))).fin ∧
        st.rst = ((lookupKey agg.flows (pktKey p)).getD
          (FlowState.init (parsedTs p now))).rst ∧
        st.ack = ((lookupKey agg.flows (pktKey p)).getD
          (FlowState.init (parsedTs p now))).ack) ∧
      (p.tcp_src = "" → p.udp_src = "" → srcPortOf p = "0") ∧
      (p.tcp_dst = "" → p.udp_dst = "" → dstPortOf p = "0") := by
  have hports1 : p.tcp_src = "" → p.udp_src = "" → srcPortOf p = "0" := by
    intro h1 h2
    simp [srcPortOf, h1, h2]
  have hports2 : p.tcp_dst = "" → p.udp_dst = "" → dstPortOf p = "0" := by
    intro h1 h2
    simp [dstPortOf, h1, h2]
  cases hlk : lookupKey agg.flows (pktKey p) with
  | none =>
    refine ⟨(FlowState.init (parsedTs p now)).add_packet (parsedLen p)
        (parsedTs p now) (some p.flags), ?_, ?_, ?_, ?_, ?_, hports1, hports2⟩
    · have heq : (agg.add_packet p now).flows =
          assocSet agg.flows (pktKey p)
            ((FlowState.init (parsedTs p now)).add_packet (parsedLen p)
              (parsedTs p now) (some p.flags)) := by
        unfold FlowAggregator.add_packet
        simp only []
        rw [hlk]
      rw [heq]
      exact lookupKey_assocSet _ _ _
    · exact (add_packet_fields _ (parsedLen p) (parsedTs p now) (some p.flags)).1
    · intro h
      have hts' : parsedTs p now = now := by
        rcases h with h | h
        · simp [parsedTs, h]
        · by_cases hp : p.ts = "" <;> simp [parsedTs, hp, h]
      rw [(add_packet_fields _ (parsedLen p) (parsedTs p now)
        (some p.flags)).2.2.2.2.1, hts']
    · intro h
      have hlen' : parsedLen p = 0 := by
        rcases h with h | h
        · simp [parsedLen, h]
        · by_cases hp : p.len = "" <;> simp [parsedLen, hp, h]
      rw [(add_packet_fields _ (parsedLen p) (parsedTs p now)
        (some p.flags)).2.2.1, hlen']
      rfl
    · intro h
      exact add_packet_flags_ignored _ (parsedLen p) (parsedTs p now) p.flags h
  | some s0 =>
    refine ⟨s0.add_packet (parsedLen p) (parsedTs p now) (some p.flags),
      ?_, ?_, ?_, ?_, ?_, hports1, hports2⟩
    · have heq : (agg.add_packet p now).flows =
          assocSet agg.flows (pktKey p)
            (s0.add_packet (parsedLen p) (parsedTs p now) (some p.flags)) := by
        unfold FlowAggregator.add_packet
        simp only []
        rw [hlk]
      rw [heq]
      exact lookupKey_assocSet _ _ _
    · exact (add_packet_fields _ (parsedLen p) (parsedTs p now) (some p.flags)).1
    · intro h
      have hts' : parsedTs p now = now := by
        rcases h with h | h
        · simp [parsedTs, h]
        · by_cases hp : p.ts = "" <;> simp [parsedTs, hp, h]
      rw [(add_packet_fields _ (parsedLen p) (parsedTs p now)
        (some p.flags)).2.2.2.2.1, hts']
    · intro h
      have hlen' : parsedLen p = 0 := by
        rcases h with h | h
        · simp [parsedLen, h]
        · by_cases hp : p.len = "" <;> simp [parsedLen, hp, h]
      rw [(add_packet_fields _ (parsedLen p) (parsedTs p now)
        (some p.flags)).2.2.1, hlen']
      rfl
    · intro h
      exact add_packet_flags_ignored _ (parsedLen p) (parsedTs p now) p.flags h

/-- The fully degenerate record: every field blank except unparseable flags. -/
def pktBlank : Pkt := ⟨"", "", "", "", "", "", "", "", "", "zz"⟩

/-- Witness for `add_packet_never_fails_defaults` on an empty table, the blank
record and `now = 5`, with every default evaluated: the flow is created with
one size-0 packet at time 5, ports `"0"` and untouched (zero) flag counters. -/
theorem add_packet_never_fails_defaults_witness :
    ∃ st : FlowState,
      lookupKey ((FlowAggregator.init 30).add_packet pktBlank 5).flows
        (pktKey pktBlank) = some st ∧
      st.pkts = 1 ∧
      st.last_ts = 5 ∧
      st.packet_sizes = [0] ∧
      st.syn = 0 ∧ st.psh = 0 ∧ st.urg = 0 ∧ st.fin = 0 ∧ st.rst = 0 ∧
      st.ack = 0 ∧
      srcPortOf pktBlank = "0" ∧ dstPortOf pktBlank = "0" := by
  obtain ⟨st, hlook, hpkts, hts, hlen, hflags, hsp, hdp⟩ :=
    add_packet_never_fails_defaults (FlowAggregator.init 30) pktBlank 5
  obtain ⟨hsyn, hpsh, hurg, hfin, hrst, hack⟩ := hflags (Or.inr (by decide))
  refine ⟨st, hlook, ?_, hts (Or.inl rfl), ?_, ?_, ?_, ?_, ?_, ?_, ?_,
    hsp rfl rfl, hdp rfl rfl⟩
  · rw [hpkts]
    rfl
  · rw [hlen (Or.inl rfl)]
    rfl
  · rw [hsyn]
    rfl
  · rw [hpsh]
    rfl
  · rw [hurg]
    rfl
  · rw [hfin]
    rfl
  · rw [hrst]
    rfl
  · rw [hack]
    rfl

/-! ## Concrete flows for the summary and feature-vector claims -/

/-- Reading a numeric entry of the summary dict through `featGet`. -/
theorem featGet_num (d : Summary) (k : String) (x : ℚ)
    (h : lookupStr d k = some (SVal.num x)) : featGet d k = (x : ℝ) := by
  simp [featGet, h, SVal.toReal]

/-- A key absent from the summary dict reads as the silent default `0.0`. -/
theorem featGet_none (d : Summary) (k : String) (h : lookupStr d k = none) :
    featGet d k = 0 := by
  simp [featGet, h]

/-- The flow whose recorded packet sizes are exactly `[100, 200, 300]`. -/
def flowC5 : FlowState :=
  (((FlowState.init 0).add_packet 100 0 none).add_packet 200 0 none).add_packet
    300 0 none

/-- The summary entries of `flowC5`: mean 200, min 100, max 300, population
variance `20000/3`, and std the square root of that variance. -/
theorem flowC5_summary_values :
    lookupStr flowC5.summarize "pkt_mean" = some (SVal.num 200) ∧
    lookupStr flowC5.summarize "min_pkt" = some (SVal.num 100) ∧
    lookupStr flowC5.summarize "max_pkt" = some (SVal.num 300) ∧
    lookupStr flowC5.summarize "pkt_var" = some (SVal.num (20000 / 3)) ∧
    lookupStr flowC5.summarize "pkt_std" = some (SVal.sqrtOf (20000 / 3)) := by
  have hsz : flowC5.packet_sizes = [100, 200, 300] := by decide
  refine ⟨?_, ?_, ?_, ?_, ?_⟩ <;>
    · simp [FlowState.summarize, lookupStr, hsz, listMax, listMin]
      try norm_num

theorem sqrt_var_ub :
    Real.sqrt ((20000 / 3 : ℚ) : ℝ) < 81.65 * (1 - 1 / 1000000) := by
  rw [Real.sqrt_lt' (by norm_num)]
  push_cast
  norm_num

theorem sqrt_var_lb :
    81.65 * (1 - 1 / 100000) ≤ Real.sqrt ((20000 / 3 : ℚ) : ℝ) := by
  rw [Real.le_sqrt' (by norm_num)]
  push_cast
  norm_num

theorem sqrt_var_le : Real.sqrt ((20000 / 3 : ℚ) : ℝ) ≤ 81.65 := by
  apply le_of_lt
  rw [Real.sqrt_lt' (by norm_num)]
  push_cast
  norm_num

/-- Claim C5 (counterexample): the population standard deviation of
`[100, 200, 300]` is `√(20000/3) ≈ 81.64966`, which differs from `81.65` by
about `4.2e-6` relatively — not within the claimed `1e-6` relative
tolerance. -/
theorem summarize_std_not_within_1e6 :
    lookupStr flowC5.summarize "pkt_std" = some (SVal.sqrtOf (20000 / 3)) ∧
    ¬ |Real.sqrt ((20000 / 3 : ℚ) : ℝ) - 81.65| ≤ 81.65 * (1 / 1000000) := by
  refine ⟨flowC5_summary_values.2.2.2.2, ?_⟩
  intro h
  rw [abs_le] at h
  have h1 := h.1
  have h2 := sqrt_var_ub
  linarith

/-- Claim C5 (amended): for packet sizes `[100, 200, 300]`, `summarize()`
returns mean 200, min 100, max 300, and the population variance `20000/3`
(within `1e-6` of `6666.67` relatively); the std entry is the square root of
that variance, within `1e-5` of `81.65` relatively (not within `1e-6`); the
variance is the population value, differing from the sample variance
`10000`. -/
theorem summarize_population_stats_100_200_300 :
    lookupStr flowC5.summarize "pkt_mean" = some (SVal.num 200) ∧
    lookupStr flowC5.summarize "min_pkt" = some (SVal.num 100) ∧
    lookupStr flowC5.summarize "max_pkt" = some (SVal.num 300) ∧
    lookupStr flowC5.summarize "pkt_var" = some (SVal.num (20000 / 3)) ∧
    |(20000 / 3 : ℚ) - 6666.67| ≤ 6666.67 * (1 / 1000000) ∧
    lookupStr flowC5.summarize "pkt_std" = some (SVal.sqrtOf (20000 / 3)) ∧
    |Real.sqrt ((20000 / 3 : ℚ) : ℝ) - 81.65| ≤ 81.65 * (1 / 100000) ∧
    (20000 / 3 : ℚ) ≠ (10000 : ℚ) := by
  obtain ⟨h1, h2, h3, h4, h5⟩ := flowC5_summary_values
  refine ⟨h1, h2, h3, h4, ?_, h5, ?_, by norm_num⟩
  · rw [abs_le]
    constructor <;> norm_num
  · rw [abs_le]
    refine ⟨?_, ?_⟩
    · have := sqrt_var_lb
      linarith
    · have := sqrt_var_le
      linarith

/-- The flow of claim C1: lengths 64/128/256 at timestamps 1/2/3, raw flags
`0x010` (ACK), `0x018` (ACK+PSH), `0x030` (ACK+URG). -/
def flowC1 : FlowState :=
  (((FlowState.init 1).add_packet 64 1 (some "0x010")).add_packet 128 2
    (some "0x018")).add_packet 256 3 (some "0x030")

/-- The normalized key of the conversation `1.2.3.4:5000 ↔ 9.9.9.9:80`. -/
def keyC1 : FlowKey := normalizeKey "1.2.3.4" "9.9.9.9" "5000" "80" "6"

/-- Claim C1: the flow counts PSH = 1 and URG = 1, and the feature vector's
Min/Max Packet Length entries (positions 10 and 11) are 64 and 256 — but the
summary dict nests the flag counters under `tcp_flags` and has no
`psh_count`/`urg_count` keys, so `extract_features` silently defaults the
PSH Flag Count and URG Flag Count entries (positions 15 and 16) to `0`
instead of `1`, contradicting the extractor's stated assumption that it maps
`FlowState.summarize()` output. -/
theorem extract_features_zeroes_flag_counts :
    (∀ s : FlowState, lookupStr s.summarize "psh_count" = none ∧
      lookupStr s.summarize "urg_count" = none) ∧
    flowC1.psh = 1 ∧
    flowC1.urg = 1 ∧
    (extract_features keyC1 flowC1.summarize).get? 10 = some 64 ∧
    (extract_features keyC1 flowC1.summarize).get? 11 = some 256 ∧
    (extract_features keyC1 flowC1.summarize).get? 15 = some 0 ∧
    (extract_features keyC1 flowC1.summarize).get? 16 = some 0 := by
  have hgen : ∀ s : FlowState, lookupStr s.summarize "psh_count" = none ∧
      lookupStr s.summarize "urg_count" = none := fun s => ⟨rfl, rfl⟩
  have hsz : flowC1.packet_sizes = [64, 128, 256] := by decide
  have hmin : lookupStr flowC1.summarize "min_pkt" = some (SVal.num 64) := by
    simp [FlowState.summarize, lookupStr, hsz, listMin]
    try norm_num
  have hmax : lookupStr flowC1.summarize "max_pkt" = some (SVal.num 256) := by
    simp [FlowState.summarize, lookupStr, hsz, listMax]
    try norm_num
  have e10 : (extract_features keyC1 flowC1.summarize).get? 10 =
      some (featGet flowC1.summarize "min_pkt") := rfl
  have e11 : (extract_features keyC1 flowC1.summarize).get? 11 =
      some (featGet flowC1.summarize "max_pkt") := rfl
  have e15 : (extract_features keyC1 flowC1.summarize).get? 15 =
      some (featGet flowC1.summarize "psh_count") := rfl
  have e16 : (extract_features keyC1 flowC1.summarize).get? 16 =
      some (featGet flowC1.summarize "urg_count") := rfl
  refine ⟨hgen, by decide, by decide, ?_, ?_, ?_, ?_⟩
  · rw [e10, featGet_num _ _ _ hmin]
    norm_num
  · rw [e11, featGet_num _ _ _ hmax]
    norm_num
  · rw [e15, featGet_none _ _ (hgen flowC1).1]
  · rw [e16, featGet_none _ _ (hgen flowC1).2]
